import Mathlib

/-
Verification development for the evaluation core of a tree-walking Scheme
interpreter (src/src/parser.cpp and src/src/evaluation.cpp).

Modelling choices, kept faithful to the C++ source:
  * Runtime values are `shared_ptr`-allocated objects.  We model the heap
    explicitly: a `Val` is an optional address (`none` models a null
    `shared_ptr`, which the incomplete `Var::eval` can in fact return), and
    the `Store` is an append-only list of heap objects.  Addresses are
    allocation order; pointer identity (used by `eq?`) is address equality.
  * Environments (`Assoc`) are shared linked lists of (name, value cell)
    nodes; `modify` overwrites a cell in place, visible through every alias,
    so environment nodes live in the store as well.
  * `eval` takes a fuel parameter; `Err.fuel` marks fuel exhaustion and is
    never identified with a genuine outcome of the program.
  * C++ exceptions (`RuntimeError`) become `Err.rte`; genuine undefined
    behaviour in the source (dereferencing a null `Value`, control flowing
    off the end of a non-void function body that is an unimplemented TODO)
    becomes `Err.ub`.
  * The two operand evaluations in `Binary::eval` are passed as arguments to
    one C++ function call and are therefore indeterminately sequenced; the
    Boolean `ord` parameter of `eval` selects which of the two permitted
    orders is used (`false` = left first, `true` = right first).  Every
    other iteration in the source is an explicit loop and is modelled
    left-to-right unconditionally.
  * C++ `int` is modelled by unbounded `Int`; every program appearing in the
    theorems below stays far inside the `int` range, so no modelled claim
    depends on overflow behaviour.  The explicit overflow checks that the
    source performs in `Expt::evalRator` (against `INT_MAX`/`INT_MIN`) are
    carried over literally.
-/

namespace Scheme

/-- Syntax-tree nodes, as produced by the external reader (syntax.hpp):
numbers, exact rationals, symbols, strings, the two booleans, and lists. -/
inductive Stx where
  | num (n : Int)
  | rat (numerator denominator : Int)
  | sym (s : String)
  | str (s : String)
  | strue
  | sfalse
  | list (stxs : List Stx)
deriving Repr

/-- Expression-tree node kinds (the ExprType enumeration of Def.hpp). -/
inductive ExprType where
  | E_PLUS | E_MINUS | E_MUL | E_DIV | E_MODULO | E_EXPT
  | E_LT | E_LE | E_EQ | E_GE | E_GT
  | E_VOID | E_EXIT | E_EQQ
  | E_BOOLQ | E_INTQ | E_NULLQ | E_PAIRQ | E_PROCQ | E_SYMBOLQ | E_STRINGQ | E_LISTQ
  | E_DISPLAY | E_CONS | E_CAR | E_CDR | E_SETCAR | E_SETCDR | E_NOT | E_LIST
  | E_BEGIN | E_QUOTE | E_IF | E_LAMBDA | E_DEFINE | E_LET | E_LETREC | E_SET
  | E_COND | E_AND | E_OR
deriving Repr, DecidableEq

/-- Unary primitive kinds: the subclasses of `Unary` in the source. -/
inductive Prim1 where
  | isBoolean | isFixnum | isNull | isPair | isProcedure | isSymbol | isString
  | isList | car | cdr | display | notp
deriving Repr, DecidableEq

/-- Binary primitive kinds: the subclasses of `Binary` in the source. -/
inductive Prim2 where
  | plus | minus | mult | div | modulo | expt
  | less | lessEq | equal | greaterEq | greater
  | cons | setCar | setCdr | isEq
deriving Repr, DecidableEq

/-- Variadic primitive kinds: the subclasses of `Variadic` in the source. -/
inductive PrimN where
  | plusVar | minusVar | multVar | divVar
  | lessVar | lessEqVar | equalVar | greaterEqVar | greaterVar
  | listFunc
deriving Repr, DecidableEq

/-- Expression tree (expr.hpp).  The `Unary`/`Binary`/`Variadic` class
hierarchies of the source are represented by `prim1`/`prim2`/`primN`
constructors tagged with the concrete primitive kind. -/
inductive Expr where
  | Fixnum (n : Int)
  | RationalNum (numerator denominator : Int)
  | StringExpr (s : String)
  | ETrue
  | EFalse
  | MakeVoid
  | Exit
  | Var (x : String)
  | prim1 (p : Prim1) (rand : Expr)
  | prim2 (p : Prim2) (rand1 rand2 : Expr)
  | primN (p : PrimN) (rands : List Expr)
  | Begin (es : List Expr)
  | Quote (s : Stx)
  | If (cond conseq alter : Expr)
  | Cond (clauses : List (List Expr))
  | Lambda (x : List String) (e : Expr)
  | Apply (rator : Expr) (rand : List Expr)
  | Define (var : String) (e : Expr)
  | Let (bind : List (String × Expr)) (body : Expr)
  | Letrec (bind : List (String × Expr)) (body : Expr)
  | Set (var : String) (e : Expr)
deriving Repr

/-- Runtime heap objects: one per `shared_ptr`-allocated value (value.hpp).
A pair's two slots and a procedure's captured environment hold addresses;
`Option Nat` because the source can store a null `Value` in a slot. -/
inductive HeapVal where
  | int (n : Int)
  | rat (numerator denominator : Int)
  | bool (b : Bool)
  | str (s : String)
  | sym (s : String)
  | null
  | void
  | terminate
  | pair (car cdr : Option Nat)
  | proc (parameters : List String) (e : Expr) (env : Option Nat)
deriving Repr

/-- A runtime `Value` handle: `none` models a null `shared_ptr`. -/
abbrev Val := Option Nat

/-- An environment handle (`Assoc`): address of the first node, or `none`
for the empty environment. -/
abbrev EnvRef := Option Nat

/-- One node of an environment chain: a name bound to a mutable value cell
plus the link to the rest of the chain.  The cell holds an optional value
address because `Letrec::eval` stores `Value(nullptr)` placeholders. -/
structure EnvNode where
  x : String
  v : Val
  next : EnvRef
deriving Repr

/-- The machine state: the value heap, the environment-node heap, and the
text written to standard output by `display` (one entry per write). -/
structure Store where
  heap : List HeapVal
  envs : List EnvNode
  output : List String
deriving Repr

/-- Evaluation outcomes that abort: `rte` models a thrown `RuntimeError`,
`ub` marks genuine C++ undefined behaviour reached by the source (null
`Value` dereference, missing return in an unimplemented TODO body), and
`fuel` only marks exhaustion of the modelling fuel. -/
inductive Err where
  | rte (msg : String)
  | ub (msg : String)
  | fuel
deriving Repr

/-- Allocate a fresh heap object, returning its address. -/
def allocV (h : HeapVal) (st : Store) : Val × Store :=
  (some st.heap.length, { st with heap := st.heap ++ [h] })

def IntegerV (n : Int) (st : Store) : Val × Store := allocV (.int n) st

/-- Modelled from the spec: the `Rational` constructor of value.hpp (not
under src/) stores numerator and denominator exactly as given; spec section 3
states that construction does not reduce the fraction, reduction being the
stated duty of the arithmetic primitives themselves. -/
def RationalV (numerator denominator : Int) (st : Store) : Val × Store :=
  allocV (.rat numerator denominator) st

def BooleanV (b : Bool) (st : Store) : Val × Store := allocV (.bool b) st

def StringV (s : String) (st : Store) : Val × Store := allocV (.str s) st

def SymbolV (s : String) (st : Store) : Val × Store := allocV (.sym s) st

def NullV (st : Store) : Val × Store := allocV .null st

def PairV (a d : Val) (st : Store) : Val × Store := allocV (.pair a d) st

def VoidV (st : Store) : Val × Store := allocV .void st

def TerminateV (st : Store) : Val × Store := allocV .terminate st

def ProcedureV (parameters : List String) (e : Expr) (env : EnvRef)
    (st : Store) : Val × Store :=
  allocV (.proc parameters e env) st

/-- Dereference a `Value`: a null handle is the C++ UB of `v->v_type` on a
null `shared_ptr`. -/
def getHV (st : Store) (v : Val) : Except Err HeapVal :=
  match v with
  | none => .error (.ub "null Value dereference")
  | some a =>
    match st.heap[a]? with
    | some h => .ok h
    | none => .error (.ub "dangling address")

/-- Modelled from the spec: `empty()` of the environment module (not under
src/) yields the frame-less environment. -/
def emptyEnv : EnvRef := none

/-- Modelled from the spec: `extend(x, v, env)` returns a new environment
consisting of a fresh single-binding frame followed by `env`, without
mutating `env`. -/
def extend (x : String) (v : Val) (env : EnvRef) (st : Store) :
    EnvRef × Store :=
  (some st.envs.length, { st with envs := st.envs ++ [⟨x, v, env⟩] })

def findGo (fuel : Nat) (x : String) (env : EnvRef) (st : Store) : Val :=
  match fuel with
  | 0 => none
  | fuel + 1 =>
    match env with
    | none => none
    | some i =>
      match st.envs[i]? with
      | none => none
      | some nd => if nd.x = x then nd.v else findGo fuel x nd.next st

/-- Modelled from the spec: `find(x, env)` (not under src/) searches the
frames innermost-to-outermost and returns the bound value, or a null
`Value` when the name is absent.  A binding whose cell holds a null
placeholder is indistinguishable from absence in the return value, exactly
as in the C++ where both come back as a null `shared_ptr`. -/
def find (x : String) (env : EnvRef) (st : Store) : Val :=
  findGo (st.envs.length + 1) x env st

def modifyGo (fuel : Nat) (x : String) (v : Val) (env : EnvRef) (st : Store) :
    Store :=
  match fuel with
  | 0 => st
  | fuel + 1 =>
    match env with
    | none => st
    | some i =>
      match st.envs[i]? with
      | none => st
      | some nd =>
        if nd.x = x then { st with envs := st.envs.set i { nd with v := v } }
        else modifyGo fuel x v nd.next st

/-- Modelled from the spec: `modify(x, v, env)` (not under src/) searches
innermost-to-outermost and overwrites the existing cell in place, the
mutation being visible through every alias of that frame.  On a name absent
from every frame the spec calls the situation a programming error of the
caller; the model leaves the store unchanged. -/
def modify (x : String) (v : Val) (env : EnvRef) (st : Store) : Store :=
  modifyGo (st.envs.length + 1) x v env st

/-- The parameter-binding loop of `Apply::eval`: extend the closure's
environment with one frame per parameter, in order. -/
def extendList : List String → List Val → EnvRef → Store → EnvRef × Store
  | [], _, env, st => (env, st)
  | _, [], env, st => (env, st)
  | p :: ps, a :: rest, env, st =>
    let (env1, st1) := extend p a env st
    extendList ps rest env1 st1

/-- Modelled from the spec: the process-wide `primitives` table (declared
`extern` in both source files, defined outside src/), mapping each primitive
surface name of spec sections 4.1, 4.2, 4.5 to its node kind. -/
def primitives (x : String) : Option ExprType :=
  match x with
  | "+" => some .E_PLUS
  | "-" => some .E_MINUS
  | "*" => some .E_MUL
  | "/" => some .E_DIV
  | "modulo" => some .E_MODULO
  | "expt" => some .E_EXPT
  | "<" => some .E_LT
  | "<=" => some .E_LE
  | "=" => some .E_EQ
  | ">=" => some .E_GE
  | ">" => some .E_GT
  | "void" => some .E_VOID
  | "exit" => some .E_EXIT
  | "eq?" => some .E_EQQ
  | "boolean?" => some .E_BOOLQ
  | "number?" => some .E_INTQ
  | "null?" => some .E_NULLQ
  | "pair?" => some .E_PAIRQ
  | "procedure?" => some .E_PROCQ
  | "symbol?" => some .E_SYMBOLQ
  | "string?" => some .E_STRINGQ
  | "list?" => some .E_LISTQ
  | "display" => some .E_DISPLAY
  | "cons" => some .E_CONS
  | "car" => some .E_CAR
  | "cdr" => some .E_CDR
  | "set-car!" => some .E_SETCAR
  | "set-cdr!" => some .E_SETCDR
  | "not" => some .E_NOT
  | "list" => some .E_LIST
  | _ => none

/-- Modelled from the spec: the process-wide `reserved_words` table
(defined outside src/), naming the special forms of spec section 4.4. -/
def reserved_words (x : String) : Option ExprType :=
  match x with
  | "begin" => some .E_BEGIN
  | "quote" => some .E_QUOTE
  | "if" => some .E_IF
  | "lambda" => some .E_LAMBDA
  | "define" => some .E_DEFINE
  | "let" => some .E_LET
  | "letrec" => some .E_LETREC
  | "set!" => some .E_SET
  | "cond" => some .E_COND
  | "and" => some .E_AND
  | "or" => some .E_OR
  | _ => none

/-- The static `primitive_map` inside `Var::eval` (evaluation.cpp lines
79-97): the only primitives that can be synthesized into first-class
procedure values, each paired with its parameter list.  Every other
primitive kind is absent, so `Var::eval` falls through and returns the
null `Value` it got from `find`. -/
def primitive_map (t : ExprType) : Option (Expr × List String) :=
  match t with
  | .E_VOID => some (.MakeVoid, [])
  | .E_EXIT => some (.Exit, [])
  | .E_BOOLQ => some (.prim1 .isBoolean (.Var "parm"), ["parm"])
  | .E_INTQ => some (.prim1 .isFixnum (.Var "parm"), ["parm"])
  | .E_NULLQ => some (.prim1 .isNull (.Var "parm"), ["parm"])
  | .E_PAIRQ => some (.prim1 .isPair (.Var "parm"), ["parm"])
  | .E_PROCQ => some (.prim1 .isProcedure (.Var "parm"), ["parm"])
  | .E_SYMBOLQ => some (.prim1 .isSymbol (.Var "parm"), ["parm"])
  | .E_STRINGQ => some (.prim1 .isString (.Var "parm"), ["parm"])
  | .E_DISPLAY => some (.prim1 .display (.Var "parm"), ["parm"])
  | .E_PLUS => some (.primN .plusVar [], [])
  | .E_MINUS => some (.primN .minusVar [], [])
  | .E_MUL => some (.primN .multVar [], [])
  | .E_DIV => some (.primN .divVar [], [])
  | .E_MODULO => some (.prim2 .modulo (.Var "parm1") (.Var "parm2"), ["parm1", "parm2"])
  | .E_EXPT => some (.prim2 .expt (.Var "parm1") (.Var "parm2"), ["parm1", "parm2"])
  | .E_EQQ => some (.primN .equalVar [], [])
  | _ => none

/-- Modelled from the spec: the `show` rendering of value.hpp (not under
src/), used by `Display::evalRator` for non-string values; spec section 4.4
fixes only that strings print unquoted and every other kind has its own
textual rendering.  The claims below only ever display integers, so the
renderings of composite kinds are nominal placeholders. -/
def render (h : HeapVal) : String :=
  match h with
  | .int n => toString n
  | .rat n d => toString n ++ "/" ++ toString d
  | .bool b => if b then "#t" else "#f"
  | .str s => s
  | .sym s => s
  | .null => "()"
  | .void => ""
  | .terminate => ""
  | .pair _ _ => "#<pair>"
  | .proc _ _ _ => "#<procedure>"

/-- The three-way branch `(l < r) ? -1 : (l > r) ? 1 : 0` used by every
case of `compareNumericValues`. -/
def cmp3 (l r : Int) : Int := if l < r then -1 else if l > r then 1 else 0

/-- Transcription of `compareNumericValues` (evaluation.cpp lines 288-316):
the shared three-way comparator over integer/rational pairs, by
cross-multiplication.  The source dereferences `v1` in every condition and
touches `v2` only after `v1` proved numeric, which the nesting preserves. -/
def compareNumericValues (v1 v2 : Val) (st : Store) : Except Err Int := do
  let h1 ← getHV st v1
  match h1 with
  | .int n1 => do
    let h2 ← getHV st v2
    match h2 with
    | .int n2 => .ok (cmp3 n1 n2)
    | .rat n2 d2 => .ok (cmp3 (n1 * d2) n2)
    | _ => .error (.rte "Wrong typename in numeric comparison")
  | .rat n1 d1 => do
    let h2 ← getHV st v2
    match h2 with
    | .int n2 => .ok (cmp3 n1 (n2 * d1))
    | .rat n2 d2 => .ok (cmp3 (n1 * d2) (n2 * d1))
    | _ => .error (.rte "Wrong typename in numeric comparison")
  | _ => .error (.rte "Wrong typename in numeric comparison")

def INT_MAX : Int := 2147483647

def INT_MIN : Int := -2147483648

/-- The fast-exponentiation `while` loop of `Expt::evalRator` with its
literal overflow checks; the loop halves `exp` each iteration so any fuel
above `log2` of the exponent is enough. -/
def exptLoop (fuel : Nat) (result b exp : Int) : Except Err Int :=
  match fuel with
  | 0 => .error .fuel
  | fuel + 1 =>
    if exp ≤ 0 then .ok result
    else
      let result1 := if Int.tmod exp 2 = 1 then result * b else result
      if Int.tmod exp 2 = 1 ∧ (result1 > INT_MAX ∨ result1 < INT_MIN) then
        .error (.rte "Integer overflow in expt")
      else
        let b1 := b * b
        if (b1 > INT_MAX ∨ b1 < INT_MIN) ∧ exp > 1 then
          .error (.rte "Integer overflow in expt")
        else exptLoop fuel result1 b1 (Int.tdiv exp 2)

def isZeroNum (h : HeapVal) : Bool :=
  match h with
  | .int n => n == 0
  | .rat n _ => n == 0
  | _ => false

/-- The `while (cur->v_type == V_PAIR)` walk of `IsList::evalRator`; an
acyclic chain is shorter than the heap, so the fuel only runs out on the
cyclic structures on which the C++ loop diverges. -/
def isListLoop (fuel : Nat) (cur : Val) (st : Store) :
    Except Err (Val × Store) :=
  match fuel with
  | 0 => .error .fuel
  | fuel + 1 => do
    let h ← getHV st cur
    match h with
    | .pair _ d => isListLoop fuel d st
    | .null => .ok (BooleanV true st)
    | _ => .ok (BooleanV false st)

/-- Unary primitive dispatch: the `evalRator` bodies of the `Unary`
subclasses (evaluation.cpp lines 370-461, 507-510, 593-602). -/
def evalRator1 (p : Prim1) (v : Val) (st : Store) :
    Except Err (Val × Store) :=
  match p with
  | .isBoolean => do
    let h ← getHV st v
    .ok (BooleanV (match h with | .bool _ => true | _ => false) st)
  | .isFixnum => do
    let h ← getHV st v
    .ok (BooleanV (match h with | .int _ => true | _ => false) st)
  | .isNull => do
    let h ← getHV st v
    .ok (BooleanV (match h with | .null => true | _ => false) st)
  | .isPair => do
    let h ← getHV st v
    .ok (BooleanV (match h with | .pair _ _ => true | _ => false) st)
  | .isProcedure => do
    let h ← getHV st v
    .ok (BooleanV (match h with | .proc _ _ _ => true | _ => false) st)
  | .isSymbol => do
    let h ← getHV st v
    .ok (BooleanV (match h with | .sym _ => true | _ => false) st)
  | .isString => do
    let h ← getHV st v
    .ok (BooleanV (match h with | .str _ => true | _ => false) st)
  | .isList => isListLoop (st.heap.length + 1) v st
  | .car =>
    match v with
    | none => .error (.rte "car on invalid value")
    | some a =>
      match st.heap[a]? with
      | some (.pair c _) => .ok (c, st)
      | some _ => .error (.rte "car on non-pair")
      | none => .error (.ub "dangling address")
  | .cdr =>
    match v with
    | none => .error (.rte "cdr on invalid value")
    | some a =>
      match st.heap[a]? with
      | some (.pair _ d) => .ok (d, st)
      | some _ => .error (.rte "cdr on non-pair")
      | none => .error (.ub "dangling address")
  | .display => do
    let h ← getHV st v
    match h with
    | .str s => .ok (VoidV { st with output := st.output ++ [s] })
    | _ => .ok (VoidV { st with output := st.output ++ [render h] })
  | .notp => do
    let h ← getHV st v
    .ok (BooleanV (match h with | .bool false => true | _ => false) st)

/-- Binary primitive dispatch: the `evalRator` bodies of the `Binary`
subclasses (evaluation.cpp lines 116-232, 250-285, 318-336, 358-359,
399-433).  Dereference order follows the source conditions: the first
operand is inspected before the second is touched wherever the C++
short-circuits, and `Div` checks its divisor for zero before looking at the
dividend. -/
def evalRator2 (p : Prim2) (a b : Val) (st : Store) :
    Except Err (Val × Store) :=
  match p with
  | .plus => do
    let ha ← getHV st a
    match ha with
    | .int n1 => do
      let hb ← getHV st b
      match hb with
      | .int n2 => .ok (IntegerV (n1 + n2) st)
      | .rat n2 d2 => .ok (RationalV (n1 * d2 + n2) d2 st)
      | _ => .error (.rte "Wrong typename")
    | .rat n1 d1 => do
      let hb ← getHV st b
      match hb with
      | .int n2 => .ok (RationalV (n1 + n2 * d1) d1 st)
      | .rat n2 d2 => .ok (RationalV (n1 * d2 + n2 * d1) (d1 * d2) st)
      | _ => .error (.rte "Wrong typename")
    | _ => .error (.rte "Wrong typename")
  | .minus => do
    let ha ← getHV st a
    match ha with
    | .int n1 => do
      let hb ← getHV st b
      match hb with
      | .int n2 => .ok (IntegerV (n1 - n2) st)
      | .rat n2 d2 => .ok (RationalV (n1 * d2 - n2) d2 st)
      | _ => .error (.rte "Wrong typename")
    | .rat n1 d1 => do
      let hb ← getHV st b
      match hb with
      | .int n2 => .ok (RationalV (n1 - n2 * d1) d1 st)
      | .rat n2 d2 => .ok (RationalV (n1 * d2 - n2 * d1) (d1 * d2) st)
      | _ => .error (.rte "Wrong typename")
    | _ => .error (.rte "Wrong typename")
  | .mult => do
    let ha ← getHV st a
    match ha with
    | .int n1 => do
      let hb ← getHV st b
      match hb with
      | .int n2 => .ok (IntegerV (n1 * n2) st)
      | .rat n2 d2 => .ok (RationalV (n1 * n2) d2 st)
      | _ => .error (.rte "Wrong typename")
    | .rat n1 d1 => do
      let hb ← getHV st b
      match hb with
      | .int n2 => .ok (RationalV (n1 * n2) d1 st)
      | .rat n2 d2 => .ok (RationalV (n1 * n2) (d1 * d2) st)
      | _ => .error (.rte "Wrong typename")
    | _ => .error (.rte "Wrong typename")
  | .div => do
    let hb ← getHV st b
    if isZeroNum hb then .error (.rte "Division by zero")
    else do
      let ha ← getHV st a
      match ha, hb with
      | .int n1, .int n2 => .ok (RationalV n1 n2 st)
      | .rat n1 d1, .int n2 => .ok (RationalV n1 (d1 * n2) st)
      | .int n1, .rat n2 d2 => .ok (RationalV (n1 * d2) n2 st)
      | .rat n1 d1, .rat n2 d2 => .ok (RationalV (n1 * d2) (d1 * n2) st)
      | _, _ => .error (.rte "Wrong typename")
  | .modulo => do
    let ha ← getHV st a
    match ha with
    | .int n1 => do
      let hb ← getHV st b
      match hb with
      | .int n2 =>
        if n2 = 0 then .error (.rte "Division by zero")
        else .ok (IntegerV (Int.tmod n1 n2) st)
      | _ => .error (.rte "modulo is only defined for integers")
    | _ => .error (.rte "modulo is only defined for integers")
  | .expt => do
    let ha ← getHV st a
    match ha with
    | .int base => do
      let hb ← getHV st b
      match hb with
      | .int exponent =>
        if exponent < 0 then
          .error (.rte "Negative exponent not supported for integers")
        else if base = 0 ∧ exponent = 0 then
          .error (.rte "0^0 is undefined")
        else do
          let r ← exptLoop (exponent.toNat + 2) 1 base exponent
          .ok (IntegerV r st)
      | _ => .error (.rte "Wrong typename")
    | _ => .error (.rte "Wrong typename")
  | .less => do
    let c ← compareNumericValues a b st
    .ok (BooleanV (decide (c < 0)) st)
  | .lessEq => do
    let c ← compareNumericValues a b st
    .ok (BooleanV (decide (c ≤ 0)) st)
  | .equal => do
    let c ← compareNumericValues a b st
    .ok (BooleanV (decide (c = 0)) st)
  | .greaterEq => do
    let c ← compareNumericValues a b st
    .ok (BooleanV (decide (c ≥ 0)) st)
  | .greater => do
    let c ← compareNumericValues a b st
    .ok (BooleanV (decide (c > 0)) st)
  | .cons => .ok (PairV a b st)
  | .setCar => do
    let ha ← getHV st a
    match a, ha with
    | some i, .pair _ d => .ok (VoidV { st with heap := st.heap.set i (.pair b d) })
    | _, _ => .error (.rte "set-car! on non-pair")
  | .setCdr => do
    let ha ← getHV st a
    match a, ha with
    | some i, .pair c _ => .ok (VoidV { st with heap := st.heap.set i (.pair c b) })
    | _, _ => .error (.rte "set-cdr! on non-pair")
  | .isEq => do
    let ha ← getHV st a
    match ha with
    | .int n1 => do
      let hb ← getHV st b
      match hb with
      | .int n2 => .ok (BooleanV (decide (n1 = n2)) st)
      | _ => .ok (BooleanV (decide (a = b)) st)
    | .bool b1 => do
      let hb ← getHV st b
      match hb with
      | .bool b2 => .ok (BooleanV (b1 == b2) st)
      | _ => .ok (BooleanV (decide (a = b)) st)
    | .sym s1 => do
      let hb ← getHV st b
      match hb with
      | .sym s2 => .ok (BooleanV (decide (s1 = s2)) st)
      | _ => .ok (BooleanV (decide (a = b)) st)
    | .null => do
      let hb ← getHV st b
      match hb with
      | .null => .ok (BooleanV true st)
      | _ => .ok (BooleanV (decide (a = b)) st)
    | .void => do
      let hb ← getHV st b
      match hb with
      | .void => .ok (BooleanV true st)
      | _ => .ok (BooleanV (decide (a = b)) st)
    | _ => .ok (BooleanV (decide (a = b)) st)

/-- The right-fold of `ListFunc::evalRator`: the null terminator is
allocated first, then the pairs from the last argument leftwards. -/
def listBuild : List Val → Val → Store → Val × Store
  | [], acc, st => (acc, st)
  | x :: rest, acc, st =>
    let (p, st1) := PairV x acc st
    listBuild rest p st1

/-- Variadic primitive dispatch: the `evalRator` bodies of the `Variadic`
subclasses.  `ListFunc::evalRator` (lines 362-368) is implemented; every
arithmetic and ordering variadic body (lines 234-248 and 338-356) is an
unimplemented TODO whose control flows off the end of a non-void function,
which is undefined behaviour in C++. -/
def evalRatorN (p : PrimN) (args : List Val) (st : Store) :
    Except Err (Val × Store) :=
  match p with
  | .listFunc =>
    let (nv, st1) := NullV st
    .ok (listBuild args.reverse nv st1)
  | .plusVar => .error (.ub "missing return in PlusVar evalRator")
  | .minusVar => .error (.ub "missing return in MinusVar evalRator")
  | .multVar => .error (.ub "missing return in MultVar evalRator")
  | .divVar => .error (.ub "missing return in DivVar evalRator")
  | .lessVar => .error (.ub "missing return in LessVar evalRator")
  | .lessEqVar => .error (.ub "missing return in LessEqVar evalRator")
  | .equalVar => .error (.ub "missing return in EqualVar evalRator")
  | .greaterEqVar => .error (.ub "missing return in GreaterEqVar evalRator")
  | .greaterVar => .error (.ub "missing return in GreaterVar evalRator")

mutual

/-- Transcription of `Quote::eval` (evaluation.cpp lines 469-487):
self-evaluating syntax maps to the corresponding fresh value; a list maps
to a null-terminated pair chain built right-to-left, quoting each element
recursively (the C++ allocates the null terminator, then iterates from the
last element down to the first, which is exactly the allocation order of
the right fold below). -/
def quoteVal : Stx → Store → Except Err (Val × Store)
  | .num n, st => .ok (IntegerV n st)
  | .rat n d, st => .ok (RationalV n d st)
  | .strue, st => .ok (BooleanV true st)
  | .sfalse, st => .ok (BooleanV false st)
  | .str s, st => .ok (StringV s st)
  | .sym s, st => .ok (SymbolV s st)
  | .list xs, st => quoteListR xs st

/-- The element loop of `Quote::eval` on a list: recurse on the tail first
so that values are allocated right-to-left after the null terminator, as in
the source. -/
def quoteListR : List Stx → Store → Except Err (Val × Store)
  | [], st => .ok (NullV st)
  | x :: rest, st => do
    let (tv, st1) ← quoteListR rest st
    let (ev, st2) ← quoteVal x st1
    .ok (PairV ev tv st2)

end

/-- The placeholder loop of `Letrec::eval`: extend the environment with
every bound name set to `Value(nullptr)`. -/
def extendNulls : List (String × Expr) → EnvRef → Store → EnvRef × Store
  | [], env, st => (env, st)
  | (x, _) :: rest, env, st =>
    let (env1, st1) := extend x none env st
    extendNulls rest env1 st1

/-- The back-patching loop of `Letrec::eval`: overwrite each placeholder
cell with its computed value, in binding order. -/
def modifyAll : List (String × Expr) → List Val → EnvRef → Store → Store
  | (x, _) :: brest, v :: vrest, env, st =>
    modifyAll brest vrest env (modify x v env st)
  | _, _, _, st => st

/-- The truthiness test of `If::eval` and the clause test shared with the
other conditional forms: only the boolean `false` is falsy. -/
def truthy (h : HeapVal) : Bool :=
  match h with
  | .bool false => false
  | _ => true

mutual

/-- The evaluator: one case per expression-tree node kind, transcribing the
per-kind `eval` methods of evaluation.cpp.  `ord` selects which of the two
C++-permitted sequencings `Binary::eval` uses for its operand evaluations
(`false` = first operand first); the environment component of the result is
the final value of the by-reference `Assoc &e` parameter, through which
`Define::eval` mutates the caller's handle. -/
def eval (ord : Bool) : Nat → Expr → EnvRef → Store →
    Except Err (Val × EnvRef × Store)
  | 0, _, _, _ => .error .fuel
  | fuel + 1, ex, env, st =>
    match ex with
    | .Fixnum n =>
      let (v, st1) := IntegerV n st
      .ok (v, env, st1)
    | .RationalNum n d =>
      let (v, st1) := RationalV n d st
      .ok (v, env, st1)
    | .StringExpr s =>
      let (v, st1) := StringV s st
      .ok (v, env, st1)
    | .ETrue =>
      let (v, st1) := BooleanV true st
      .ok (v, env, st1)
    | .EFalse =>
      let (v, st1) := BooleanV false st
      .ok (v, env, st1)
    | .MakeVoid =>
      let (v, st1) := VoidV st
      .ok (v, env, st1)
    | .Exit =>
      let (v, st1) := TerminateV st
      .ok (v, env, st1)
    | .Var x =>
      match find x env st with
      | some a => .ok (some a, env, st)
      | none =>
        match primitives x with
        | some pt =>
          match primitive_map pt with
          | some pr =>
            let (v, st1) := ProcedureV pr.2 pr.1 env st
            .ok (v, env, st1)
          | none => .ok (none, env, st)
        | none => .ok (none, env, st)
    | .prim1 p r =>
      match eval ord fuel r env st with
      | .error er => .error er
      | .ok (v, env1, st1) =>
        match evalRator1 p v st1 with
        | .error er => .error er
        | .ok (v2, st2) => .ok (v2, env1, st2)
    | .prim2 p r1 r2 =>
      if ord then
        match eval ord fuel r2 env st with
        | .error er => .error er
        | .ok (v2, env1, st1) =>
          match eval ord fuel r1 env1 st1 with
          | .error er => .error er
          | .ok (v1, env2, st2) =>
            match evalRator2 p v1 v2 st2 with
            | .error er => .error er
            | .ok (v, st3) => .ok (v, env2, st3)
      else
        match eval ord fuel r1 env st with
        | .error er => .error er
        | .ok (v1, env1, st1) =>
          match eval ord fuel r2 env1 st1 with
          | .error er => .error er
          | .ok (v2, env2, st2) =>
            match evalRator2 p v1 v2 st2 with
            | .error er => .error er
            | .ok (v, st3) => .ok (v, env2, st3)
    | .primN p rs =>
      match evalArgs ord fuel rs env st with
      | .error er => .error er
      | .ok (vs, env1, st1) =>
        match evalRatorN p vs st1 with
        | .error er => .error er
        | .ok (v, st2) => .ok (v, env1, st2)
    | .Begin es =>
      let (v0, st1) := VoidV st
      evalSeq ord fuel es v0 env st1
    | .Quote s =>
      match quoteVal s st with
      | .error er => .error er
      | .ok (v, st1) => .ok (v, env, st1)
    | .If c conseq alter =>
      match eval ord fuel c env st with
      | .error er => .error er
      | .ok (cv, env1, st1) =>
        match getHV st1 cv with
        | .error er => .error er
        | .ok hc =>
          if truthy hc then eval ord fuel conseq env1 st1
          else eval ord fuel alter env1 st1
    | .Cond _ => .error (.ub "Cond eval missing return")
    | .Lambda ps body =>
      let (v, st1) := ProcedureV ps body env st
      .ok (v, env, st1)
    | .Apply rator rands =>
      match eval ord fuel rator env st with
      | .error er => .error er
      | .ok (pv, env1, st1) =>
        match getHV st1 pv with
        | .error er => .error er
        | .ok hv =>
          match hv with
          | .proc params body cenv =>
            match evalArgs ord fuel rands env1 st1 with
            | .error er => .error er
            | .ok (args, env2, st2) =>
              if args.length = params.length then
                match extendList params args cenv st2 with
                | (cenv2, st3) =>
                  match eval ord fuel body cenv2 st3 with
                  | .error er => .error er
                  | .ok (v, _, st4) => .ok (v, env2, st4)
              else .error (.rte "Wrong number of arguments")
          | _ => .error (.rte "Attempt to apply a non-procedure")
    | .Define x e1 =>
      match eval ord fuel e1 env st with
      | .error er => .error er
      | .ok (v, env1, st1) =>
        match find x env1 st1 with
        | some _ => .ok (v, env1, modify x v env1 st1)
        | none =>
          let (env2, st2) := extend x v env1 st1
          .ok (v, env2, st2)
    | .Let binds body =>
      match evalLetBinds ord fuel binds env env st with
      | .error er => .error er
      | .ok (envA, localA, st1) =>
        match eval ord fuel body localA st1 with
        | .error er => .error er
        | .ok (bv, _, st2) => .ok (bv, envA, st2)
    | .Letrec binds body =>
      match extendNulls binds env st with
      | (env1, st1) =>
        match evalLetrecVals ord fuel binds env1 st1 with
        | .error er => .error er
        | .ok (vals, env2, st2) =>
          let st3 := modifyAll binds vals env2 st2
          match eval ord fuel body env2 st3 with
          | .error er => .error er
          | .ok (bv, _, st4) => .ok (bv, env, st4)
    | .Set x e1 =>
      match eval ord fuel e1 env st with
      | .error er => .error er
      | .ok (v, env1, st1) => .ok (v, env1, modify x v env1 st1)

/-- The left-to-right argument loop shared by `Variadic::eval` and
`Apply::eval`. -/
def evalArgs (ord : Bool) : Nat → List Expr → EnvRef → Store →
    Except Err (List Val × EnvRef × Store)
  | 0, _, _, _ => .error .fuel
  | _ + 1, [], env, st => .ok ([], env, st)
  | fuel + 1, x :: rest, env, st =>
    match eval ord fuel x env st with
    | .error er => .error er
    | .ok (v, env1, st1) =>
      match evalArgs ord fuel rest env1 st1 with
      | .error er => .error er
      | .ok (vs, env2, st2) => .ok (v :: vs, env2, st2)

/-- The statement loop of `Begin::eval`, carrying the last value (the
pre-allocated void for an empty sequence). -/
def evalSeq (ord : Bool) : Nat → List Expr → Val → EnvRef → Store →
    Except Err (Val × EnvRef × Store)
  | 0, _, _, _, _ => .error .fuel
  | _ + 1, [], last, env, st => .ok (last, env, st)
  | fuel + 1, x :: rest, _, env, st =>
    match eval ord fuel x env st with
    | .error er => .error er
    | .ok (v, env1, st1) => evalSeq ord fuel rest v env1 st1

/-- The binding loop of `Let::eval`: each right-hand side is evaluated
against the caller's (threaded) environment handle while the new frames
accumulate on the separate `local` handle. -/
def evalLetBinds (ord : Bool) : Nat → List (String × Expr) → EnvRef →
    EnvRef → Store → Except Err (EnvRef × EnvRef × Store)
  | 0, _, _, _, _ => .error .fuel
  | _ + 1, [], env, localE, st => .ok (env, localE, st)
  | fuel + 1, (x, e1) :: rest, env, localE, st =>
    match eval ord fuel e1 env st with
    | .error er => .error er
    | .ok (v, env1, st1) =>
      match extend x v localE st1 with
      | (local1, st2) => evalLetBinds ord fuel rest env1 local1 st2

/-- The right-hand-side loop of `Letrec::eval`: every expression is
evaluated against the placeholder-extended environment, collecting the
computed values. -/
def evalLetrecVals (ord : Bool) : Nat → List (String × Expr) → EnvRef →
    Store → Except Err (List Val × EnvRef × Store)
  | 0, _, _, _ => .error .fuel
  | _ + 1, [], env, st => .ok ([], env, st)
  | fuel + 1, (_, e1) :: rest, env, st =>
    match eval ord fuel e1 env st with
    | .error er => .error er
    | .ok (v, env1, st1) =>
      match evalLetrecVals ord fuel rest env1 st1 with
      | .error er => .error er
      | .ok (vs, env2, st2) => .ok (v :: vs, env2, st2)

end

/-- The parameter-list check of the `E_LAMBDA` case of `List::parse`:
every element must be a symbol. -/
def symNames : List Stx → Except Err (List String)
  | [] => .ok []
  | .sym s :: rest => do
    let ns ← symNames rest
    .ok (s :: ns)
  | _ :: _ => .error (.rte "lambda param must be symbol")

mutual

/-- Transcription of the `parse` methods of parser.cpp: atoms map to their
literal nodes, a symbol to `Var`; a list is resolved through, in order, the
bound-variable check, the primitive table (with per-primitive arity
checks), and the reserved-word table (special forms), defaulting to an
`Apply` of the head symbol.  The environment is consulted only for the
leading-symbol bound-variable check. -/
def parse : Nat → Stx → EnvRef → Store → Except Err Expr
  | 0, _, _, _ => .error .fuel
  | fuel + 1, stx, env, st =>
    match stx with
    | .num n => .ok (.Fixnum n)
    | .rat n d => .ok (.RationalNum n d)
    | .sym s => .ok (.Var s)
    | .str s => .ok (.StringExpr s)
    | .strue => .ok .ETrue
    | .sfalse => .ok .EFalse
    | .list [] => .ok (.Quote (.list []))
    | .list (hd :: tl) =>
      match hd with
      | .sym op =>
        if (find op env st).isSome then
          match parseList fuel tl env st with
          | .error er => .error er
          | .ok params => .ok (.Apply (.Var op) params)
        else
          match primitives op with
          | some pt =>
            match parseList fuel tl env st with
            | .error er => .error er
            | .ok params =>
              match pt with
              | .E_PLUS =>
                match params with
                | [a, b] => .ok (.prim2 .plus a b)
                | _ => .error (.rte "Wrong number of arguments for +")
              | .E_MINUS =>
                match params with
                | [a, b] => .ok (.prim2 .minus a b)
                | _ => .error (.rte "Wrong number of arguments for -")
              | .E_MUL =>
                match params with
                | [a, b] => .ok (.prim2 .mult a b)
                | _ => .error (.rte "Wrong number of arguments for *")
              | .E_DIV =>
                match params with
                | [a, b] => .ok (.prim2 .div a b)
                | _ => .error (.rte "Wrong number of arguments for /")
              | .E_MODULO =>
                match params with
                | [a, b] => .ok (.prim2 .modulo a b)
                | _ => .error (.rte "Wrong number of arguments for modulo")
              | .E_LIST => .ok (.primN .listFunc params)
              | .E_CONS =>
                match params with
                | [a, b] => .ok (.prim2 .cons a b)
                | _ => .error (.rte "Wrong number of arguments for cons")
              | .E_CAR =>
                match params with
                | [a] => .ok (.prim1 .car a)
                | _ => .error (.rte "Wrong number of arguments for car")
              | .E_CDR =>
                match params with
                | [a] => .ok (.prim1 .cdr a)
                | _ => .error (.rte "Wrong number of arguments for cdr")
              | .E_SETCAR =>
                match params with
                | [a, b] => .ok (.prim2 .setCar a b)
                | _ => .error (.rte "Wrong number of arguments for set-car!")
              | .E_SETCDR =>
                match params with
                | [a, b] => .ok (.prim2 .setCdr a b)
                | _ => .error (.rte "Wrong number of arguments for set-cdr!")
              | .E_NOT =>
                match params with
                | [a] => .ok (.prim1 .notp a)
                | _ => .error (.rte "Wrong number of arguments for not")
              | .E_DISPLAY =>
                match params with
                | [a] => .ok (.prim1 .display a)
                | _ => .error (.rte "Wrong number of arguments for display")
              | .E_EQQ =>
                match params with
                | [a, b] => .ok (.prim2 .isEq a b)
                | _ => .error (.rte "Wrong number of arguments for eq?")
              | .E_BOOLQ =>
                match params with
                | [a] => .ok (.prim1 .isBoolean a)
                | _ => .error (.rte "Wrong number of arguments for boolean?")
              | .E_INTQ =>
                match params with
                | [a] => .ok (.prim1 .isFixnum a)
                | _ => .error (.rte "Wrong number of arguments for number?")
              | .E_NULLQ =>
                match params with
                | [a] => .ok (.prim1 .isNull a)
                | _ => .error (.rte "Wrong number of arguments for null?")
              | .E_PAIRQ =>
                match params with
                | [a] => .ok (.prim1 .isPair a)
                | _ => .error (.rte "Wrong number of arguments for pair?")
              | .E_PROCQ =>
                match params with
                | [a] => .ok (.prim1 .isProcedure a)
                | _ => .error (.rte "Wrong number of arguments for procedure?")
              | .E_SYMBOLQ =>
                match params with
                | [a] => .ok (.prim1 .isSymbol a)
                | _ => .error (.rte "Wrong number of arguments for symbol?")
              | .E_LISTQ =>
                match params with
                | [a] => .ok (.prim1 .isList a)
                | _ => .error (.rte "Wrong number of arguments for list?")
              | .E_STRINGQ =>
                match params with
                | [a] => .ok (.prim1 .isString a)
                | _ => .error (.rte "Wrong number of arguments for string?")
              | _ => .ok (.Apply (.Var op) params)
          | none =>
            match reserved_words op with
            | some rt =>
              match rt with
              | .E_BEGIN =>
                match parseList fuel tl env st with
                | .error er => .error er
                | .ok seq => .ok (.Begin seq)
              | .E_QUOTE =>
                match tl with
                | [q] => .ok (.Quote q)
                | _ => .error (.rte "Wrong number of arguments for quote")
              | .E_IF =>
                match tl with
                | [c, t, alt] =>
                  match parse fuel c env st with
                  | .error er => .error er
                  | .ok ce =>
                    match parse fuel t env st with
                    | .error er => .error er
                    | .ok te =>
                      match parse fuel alt env st with
                      | .error er => .error er
                      | .ok ae => .ok (.If ce te ae)
                | _ => .error (.rte "Wrong number of arguments for if")
              | .E_LAMBDA =>
                match tl with
                | plist :: bodyStx :: _ =>
                  match plist with
                  | .list ps =>
                    match symNames ps with
                    | .error er => .error er
                    | .ok names =>
                      match parse fuel bodyStx env st with
                      | .error er => .error er
                      | .ok body => .ok (.Lambda names body)
                  | _ => .error (.rte "lambda params must be a list")
                | _ => .error (.rte "Wrong number of arguments for lambda")
              | .E_DEFINE =>
                match tl with
                | [nm, rhs] =>
                  match nm with
                  | .sym s =>
                    match parse fuel rhs env st with
                    | .error er => .error er
                    | .ok e1 => .ok (.Define s e1)
                  | _ => .error (.rte "define variable must be symbol")
                | _ => .error (.rte "Wrong number of arguments for define")
              | .E_LET =>
                match tl with
                | bindsStx :: bodyStx :: _ =>
                  match bindsStx with
                  | .list bs =>
                    match parseBinds fuel "let" bs env st with
                    | .error er => .error er
                    | .ok vec =>
                      match parse fuel bodyStx env st with
                      | .error er => .error er
                      | .ok body => .ok (.Let vec body)
                  | _ => .error (.rte "let bindings must be list")
                | _ => .error (.rte "Wrong number of arguments for let")
              | .E_LETREC =>
                match tl with
                | bindsStx :: bodyStx :: _ =>
                  match bindsStx with
                  | .list bs =>
                    match parseBinds fuel "letrec" bs env st with
                    | .error er => .error er
                    | .ok vec =>
                      match parse fuel bodyStx env st with
                      | .error er => .error er
                      | .ok body => .ok (.Letrec vec body)
                  | _ => .error (.rte "letrec bindings must be list")
                | _ => .error (.rte "Wrong number of arguments for letrec")
              | .E_SET =>
                match tl with
                | [nm, rhs] =>
                  match nm with
                  | .sym s =>
                    match parse fuel rhs env st with
                    | .error er => .error er
                    | .ok e1 => .ok (.Set s e1)
                  | _ => .error (.rte "set! target must be symbol")
                | _ => .error (.rte "Wrong number of arguments for set!")
              | .E_COND =>
                match parseClauses fuel tl env st with
                | .error er => .error er
                | .ok clauses => .ok (.Cond clauses)
              | _ => .error (.rte ("Unknown reserved word: " ++ op))
            | none =>
              match parseList fuel tl env st with
              | .error er => .error er
              | .ok params => .ok (.Apply (.Var op) params)
      | _ =>
        match parseList fuel tl env st with
        | .error er => .error er
        | .ok args =>
          match parse fuel hd env st with
          | .error er => .error er
          | .ok r => .ok (.Apply r args)

/-- The argument loop shared by every branch of `List::parse`. -/
def parseList : Nat → List Stx → EnvRef → Store →
    Except Err (List Expr)
  | 0, _, _, _ => .error .fuel
  | _ + 1, [], _, _ => .ok []
  | fuel + 1, x :: rest, env, st =>
    match parse fuel x env st with
    | .error er => .error er
    | .ok e1 =>
      match parseList fuel rest env st with
      | .error er => .error er
      | .ok es => .ok (e1 :: es)

/-- The binding-list loop of the `E_LET`/`E_LETREC` cases of `List::parse`:
each binding must be a two-element list headed by a symbol. -/
def parseBinds : Nat → String → List Stx → EnvRef → Store →
    Except Err (List (String × Expr))
  | 0, _, _, _, _ => .error .fuel
  | _ + 1, _, [], _, _ => .ok []
  | fuel + 1, kw, b :: rest, env, st =>
    match b with
    | .list [nm, vStx] =>
      match nm with
      | .sym s =>
        match parse fuel vStx env st with
        | .error er => .error er
        | .ok e1 =>
          match parseBinds fuel kw rest env st with
          | .error er => .error er
          | .ok vec => .ok ((s, e1) :: vec)
      | _ => .error (.rte (kw ++ " binding name must be symbol"))
    | _ => .error (.rte (kw ++ " binding must be (name expr)"))

/-- The clause loop of the `E_COND` case of `List::parse`: each clause must
be a non-empty list, every item of which is parsed as an expression. -/
def parseClauses : Nat → List Stx → EnvRef → Store →
    Except Err (List (List Expr))
  | 0, _, _, _ => .error .fuel
  | _ + 1, [], _, _ => .ok []
  | fuel + 1, c :: rest, env, st =>
    match c with
    | .list (i :: is) =>
      match parseList fuel (i :: is) env st with
      | .error er => .error er
      | .ok ce =>
        match parseClauses fuel rest env st with
        | .error er => .error er
        | .ok cs => .ok (ce :: cs)
    | _ => .error (.rte "cond clause must be a list")

end

/-- The empty initial state: no values, no environment frames, no output. -/
def initialStore : Store := ⟨[], [], []⟩

/-- Modelled from the spec: section 6 leaves the read-eval-print driver to
the host, which parses then evaluates one top-level form at a time,
threading the environment handle (so that top-level `define` accumulates
bindings visible to subsequent forms) and returning the last form's value. -/
def runGo (ord : Bool) (fuel : Nat) : List Stx → Val → EnvRef → Store →
    Except Err (Val × EnvRef × Store)
  | [], v, env, st => .ok (v, env, st)
  | x :: rest, _, env, st =>
    match parse fuel x env st with
    | .error er => .error er
    | .ok ex =>
      match eval ord fuel ex env st with
      | .error er => .error er
      | .ok (v, env1, st1) => runGo ord fuel rest v env1 st1

/-- Run a whole program from the empty environment and empty store. -/
def runProgram (ord : Bool) (fuel : Nat) (prog : List Stx) :
    Except Err (Val × EnvRef × Store) :=
  runGo ord fuel prog none none initialStore

/-- Read the heap object behind the value an evaluation produced. -/
def resultHV (r : Except Err (Val × EnvRef × Store)) : Option HeapVal :=
  match r with
  | .ok (some a, _, st) => st.heap[a]?
  | _ => none

/-- Extract the output channel of a completed evaluation. -/
def runOutput (r : Except Err (Val × EnvRef × Store)) : Option (List String) :=
  match r with
  | .ok (_, _, st) => some st.output
  | .error _ => none

/-- Read a primitive's result as the boolean it allocated. -/
def boolResult (r : Except Err (Val × Store)) : Option Bool :=
  match r with
  | .ok (some a, st) =>
    match st.heap[a]? with
    | some (.bool b) => some b
    | _ => none
  | _ => none

/-- Membership of the numeric tower, the domain of `compareNumericValues`. -/
def isNumeric (h : HeapVal) : Bool :=
  match h with
  | .int _ => true
  | .rat _ _ => true
  | _ => false

/-- Claim-derived comparison policy for `eq?`, written from the words of
claim C9 (true for two nulls or two voids, content comparison for
integer/boolean/symbol pairs, pointer identity for every other
combination); the theorem below proves `IsEq::evalRator` refines it. -/
def eqClaimSpec (a b : Val) (ha hb : HeapVal) : Bool :=
  match ha, hb with
  | .int n1, .int n2 => decide (n1 = n2)
  | .bool b1, .bool b2 => b1 == b2
  | .sym s1, .sym s2 => decide (s1 = s2)
  | .null, .null => true
  | .void, .void => true
  | _, _ => decide (a = b)

/-- Scheme source of claim C1: `(define f (let ((x 1)) (lambda () x)))`,
then `(define x 2)`, then `(f)`. -/
def scopingProg : List Stx :=
  [ .list [.sym "define", .sym "f",
      .list [.sym "let", .list [.list [.sym "x", .num 1]],
        .list [.sym "lambda", .list [], .sym "x"]]],
    .list [.sym "define", .sym "x", .num 2],
    .list [.sym "f"] ]

/-- Scheme source of claim C2: the self-referential factorial
`(letrec ((f (lambda (n) (if (= n 0) 1 (* n (f (- n 1))))))) (f 5))`. -/
def factorialProg : List Stx :=
  [ .list [.sym "letrec",
      .list [.list [.sym "f",
        .list [.sym "lambda", .list [.sym "n"],
          .list [.sym "if", .list [.sym "=", .sym "n", .num 0],
            .num 1,
            .list [.sym "*", .sym "n",
              .list [.sym "f", .list [.sym "-", .sym "n", .num 1]]]]]]],
      .list [.sym "f", .num 5]] ]

/-- A self-referential letrec that stays inside the working primitives:
`(letrec ((f (lambda (l) (if (null? l) 0 (f (cdr l)))))) (f (quote (1 2))))`
exercises exactly the placeholder/back-patching mechanism of claim C2. -/
def letrecWalkProg : List Stx :=
  [ .list [.sym "letrec",
      .list [.list [.sym "f",
        .list [.sym "lambda", .list [.sym "l"],
          .list [.sym "if", .list [.sym "null?", .sym "l"],
            .num 0,
            .list [.sym "f", .list [.sym "cdr", .sym "l"]]]]]],
      .list [.sym "f", .list [.sym "quote", .list [.num 1, .num 2]]]] ]

/-- Scheme source `(/ 2 4)` for claim C3. -/
def divProg1 : List Stx := [.list [.sym "/", .num 2, .num 4]]

/-- Scheme source `(/ 1 -2)` for claim C3. -/
def divProg2 : List Stx := [.list [.sym "/", .num 1, .num (-2)]]

/-- Scheme source `(cond (#t 1))` for claim C5. -/
def condProg : List Stx := [.list [.sym "cond", .list [.strue, .num 1]]]

/-- Scheme source `(< 1 2 3)` for claim C6. -/
def lessVarProg : List Stx := [.list [.sym "<", .num 1, .num 2, .num 3]]

/-- A store holding three integers, for exercising a variadic ordering
primitive directly (claim C6). -/
def threeIntStore : Store := ⟨[.int 1, .int 2, .int 3], [], []⟩

/-- Scheme source `(cons (display 1) (display 2))` for claim C8: a binary
node whose two operands have observable side effects. -/
def consDisplayProg : List Stx :=
  [.list [.sym "cons", .list [.sym "display", .num 1],
    .list [.sym "display", .num 2]]]

/-- Scheme source `(list (display 1) (display 2) (display 3))` for claim
C8: a variadic node whose operands have observable side effects. -/
def listDisplayProg : List Stx :=
  [.list [.sym "list", .list [.sym "display", .num 1],
    .list [.sym "display", .num 2], .list [.sym "display", .num 3]]]

/-- A store holding the integer 1 and the rational 3/2 (claim C7 witness). -/
def intRatStore : Store := ⟨[.int 1, .rat 3 2], [], []⟩

/-- A store holding two structurally equal but distinct pairs (claim C9
witness). -/
def twoPairStore : Store := ⟨[.pair none none, .pair none none], [], []⟩

/-- A store binding `x` to the integer 7 in a one-frame environment, for
the bound-variable branch of claim C4. -/
def boundVarStore : Store := ⟨[.int 7], [⟨"x", some 0, none⟩], []⟩

theorem readBack (l : List HeapVal) (x : HeapVal) :
    (l ++ [x])[l.length]? = some x := by
  simp

theorem boolResult_BooleanV (b : Bool) (st : Store) :
    boolResult (Except.ok (BooleanV b st)) = some b := by
  simp [boolResult, BooleanV, allocV, readBack]

theorem int_tri (c : Int) :
    (c < 0 ∧ ¬c = 0 ∧ ¬c > 0) ∨ (¬c < 0 ∧ c = 0 ∧ ¬c > 0) ∨
    (¬c < 0 ∧ ¬c = 0 ∧ c > 0) := by
  omega

theorem wrappers_of_cmp (a b : Val) (st : Store) (c : Int)
    (hcmp : compareNumericValues a b st = .ok c) :
    boolResult (evalRator2 .less a b st) = some (decide (c < 0)) ∧
    boolResult (evalRator2 .equal a b st) = some (decide (c = 0)) ∧
    boolResult (evalRator2 .greater a b st) = some (decide (c > 0)) := by
  refine ⟨?_, ?_, ?_⟩ <;>
  · simp only [evalRator2, hcmp]
    exact boolResult_BooleanV _ _

theorem cmp_numeric_ok (st : Store) (a b : Val) (h1 h2 : HeapVal)
    (ha : getHV st a = .ok h1) (hb : getHV st b =.ok h2)
    (hn1 : isNumeric h1 = true) (hn2 : isNumeric h2 = true) :
    ∃ c, compareNumericValues a b st = .ok c := by
  cases h1 with
  | int n1 =>
    cases h2 with
    | int n2 =>
      exact ⟨cmp3 n1 n2, by simp only [compareNumericValues, ha, hb]; rfl⟩
    | rat n2 d2 =>
      exact ⟨cmp3 (n1 * d2) n2, by simp only [compareNumericValues, ha, hb]; rfl⟩
    | _ => simp [isNumeric] at hn2
  | rat n1 d1 =>
    cases h2 with
    | int n2 =>
      exact ⟨cmp3 n1 (n2 * d1), by simp only [compareNumericValues, ha, hb]; rfl⟩
    | rat n2 d2 =>
      exact ⟨cmp3 (n1 * d2) (n2 * d1), by simp only [compareNumericValues, ha, hb]; rfl⟩
    | _ => simp [isNumeric] at hn2
  | _ => simp [isNumeric] at hn1

/-- C1: an application builds its call environment by extending the
closure's captured environment (not the caller's) with one frame per
parameter bound to its evaluated argument, in order, and evaluates the body
against that environment; consequently `(let ((x 1)) (lambda () x))`
applied after a later `(define x 2)` still returns 1, under either
permitted operand sequencing. -/
theorem apply_builds_call_env_from_closure :
    (∀ (ord : Bool) (fuel : Nat) (rator : Expr) (rands : List Expr)
       (env : EnvRef) (st : Store) (pa : Nat) (env1 : EnvRef) (st1 : Store)
       (params : List String) (body : Expr) (cenv : EnvRef)
       (args : List Val) (env2 : EnvRef) (st2 : Store),
       eval ord fuel rator env st = .ok (some pa, env1, st1) →
       st1.heap[pa]? = some (.proc params body cenv) →
       evalArgs ord fuel rands env1 st1 = .ok (args, env2, st2) →
       args.length = params.length →
       eval ord (fuel + 1) (.Apply rator rands) env st =
         match eval ord fuel body (extendList params args cenv st2).1
             (extendList params args cenv st2).2 with
         | .ok (v, _, st4) => .ok (v, env2, st4)
         | .error er => .error er) ∧
    resultHV (runProgram false 50 scopingProg) = some (.int 1) ∧
    resultHV (runProgram true 50 scopingProg) = some (.int 1) := by
  refine ⟨?_, rfl, rfl⟩
  intro ord fuel rator rands env st pa env1 st1 params body cenv args env2
    st2 h1 h2 h3 h4
  have hE : extendList params args cenv st2 =
      ((extendList params args cenv st2).1,
       (extendList params args cenv st2).2) := rfl
  simp only [eval]
  rw [h1]
  simp only [getHV]
  rw [h2]
  rw [h3]
  simp only [h4, if_pos]
  rw [hE]
  cases eval ord fuel body (extendList params args cenv st2).1
      (extendList params args cenv st2).2 <;> rfl

/-- Witness for C1: applying the zero-parameter closure produced by
`(lambda () 7)` in the empty environment evaluates the body against the
captured environment and yields the allocated 7. -/
theorem apply_builds_call_env_from_closure_witness :
    eval false 4 (.Apply (.Lambda [] (.Fixnum 7)) []) none initialStore =
      .ok (some 1, none,
        ⟨[.proc [] (.Fixnum 7) none, .int 7], [], []⟩) := by
  have h := apply_builds_call_env_from_closure.1 false 3
    (.Lambda [] (.Fixnum 7)) [] none initialStore 0 none
    ⟨[.proc [] (.Fixnum 7) none], [], []⟩ [] (.Fixnum 7) none [] none
    ⟨[.proc [] (.Fixnum 7) none], [], []⟩ rfl rfl rfl rfl
  rw [h]
  rfl

/-- C2: `Letrec::eval` does extend the environment with null placeholders,
evaluate each right-hand side under the extended environment, back-patch
the placeholders and evaluate the body (the `letrecWalkProg` self-recursion
returns 0), but the factorial of the claim does not evaluate to 120: its
body applies `=`, which `Var::eval` resolves to a null `Value` (the
numeric-comparison primitives are absent from its `primitive_map`), and
`Apply::eval` then dereferences that null procedure pointer — undefined
behaviour under either operand sequencing. -/
theorem letrec_mechanism_but_factorial_crashes :
    runProgram false 60 factorialProg = .error (.ub "null Value dereference") ∧
    runProgram true 60 factorialProg = .error (.ub "null Value dereference") ∧
    resultHV (runProgram false 60 letrecWalkProg) = some (.int 0) ∧
    resultHV (runProgram true 60 letrecWalkProg) = some (.int 0) :=
  ⟨rfl, rfl, rfl, rfl⟩

/-- C3: `(/ 2 4)` evaluates to the rational 2/4, which is not in lowest
terms (gcd 2), and `(/ 1 -2)` evaluates to the rational 1/(-2) with a
negative denominator: `Div::evalRator` hands its cross-multiplied
components straight to the rational constructor without gcd reduction or
sign normalization. -/
theorem div_result_not_reduced :
    resultHV (runProgram false 20 divProg1) = some (.rat 2 4) ∧
    resultHV (runProgram true 20 divProg1) = some (.rat 2 4) ∧
    Int.gcd 2 4 ≠ 1 ∧
    resultHV (runProgram false 20 divProg2) = some (.rat 1 (-2)) ∧
    resultHV (runProgram true 20 divProg2) = some (.rat 1 (-2)) ∧
    (-2 : Int) < 0 :=
  ⟨rfl, rfl, by decide, rfl, rfl, by decide⟩

/-- C4: variable resolution does search the environment first (a bound `x`
comes back as its bound value), but on a miss it signals no `RuntimeError`:
an unbound name evaluates to a null `Value` returned as a normal result,
and so does a primitive name absent from the 17-entry `primitive_map`
(`cons`, `car` here); only a mapped primitive such as `boolean?` is
synthesized into a first-class procedure capturing the current
environment. -/
theorem var_resolution_incomplete :
    eval false 5 (.Var "x") (some 0) boundVarStore =
      .ok (some 0, some 0, boundVarStore) ∧
    eval false 5 (.Var "nosuch") none initialStore =
      .ok (none, none, initialStore) ∧
    eval false 5 (.Var "cons") none initialStore =
      .ok (none, none, initialStore) ∧
    eval false 5 (.Var "car") none initialStore =
      .ok (none, none, initialStore) ∧
    eval false 5 (.Var "boolean?") none initialStore =
      .ok (some 0, none,
        ⟨[.proc ["parm"] (.prim1 .isBoolean (.Var "parm")) none], [], []⟩) :=
  ⟨rfl, rfl, rfl, rfl, rfl⟩

/-- C5: evaluating `(cond (#t 1))` does not yield 1 (nor void): the parser
builds the clause list, but the body of `Cond::eval` is an unimplemented
TODO whose control flows off the end of a non-void function — undefined
behaviour — under either operand sequencing. -/
theorem cond_eval_unimplemented :
    runProgram false 20 condProg = .error (.ub "Cond eval missing return") ∧
    runProgram true 20 condProg = .error (.ub "Cond eval missing return") :=
  ⟨rfl, rfl⟩

/-- C6: `(< 1 2 3)` does not perform any adjacent-pair check: the parser
has no case for the ordering primitives, so the form becomes an
application of the variable `<`, which `Var::eval` resolves to a null
`Value` that `Apply::eval` dereferences — undefined behaviour; and each
variadic ordering `evalRator` body (`LessVar` through `GreaterVar`) is
itself an unimplemented TODO falling off the end of a non-void function. -/
theorem variadic_ordering_unimplemented :
    runProgram false 20 lessVarProg = .error (.ub "null Value dereference") ∧
    runProgram true 20 lessVarProg = .error (.ub "null Value dereference") ∧
    evalRatorN .lessVar [some 0, some 1, some 2] threeIntStore =
      .error (.ub "missing return in LessVar evalRator") ∧
    evalRatorN .lessEqVar [some 0, some 1, some 2] threeIntStore =
      .error (.ub "missing return in LessEqVar evalRator") ∧
    evalRatorN .equalVar [some 0, some 1, some 2] threeIntStore =
      .error (.ub "missing return in EqualVar evalRator") ∧
    evalRatorN .greaterEqVar [some 0, some 1, some 2] threeIntStore =
      .error (.ub "missing return in GreaterEqVar evalRator") ∧
    evalRatorN .greaterVar [some 0, some 1, some 2] threeIntStore =
      .error (.ub "missing return in GreaterVar evalRator") :=
  ⟨rfl, rfl, rfl, rfl, rfl, rfl, rfl⟩

/-- C7: for any two values of the numeric tower, exactly one of the
`Less`, `Equal`, `Greater` wrappers returns the true boolean — each is a
thin wrapper reading the sign of the shared cross-multiplying three-way
comparator `compareNumericValues`. -/
theorem numeric_comparison_trichotomy (st : Store) (a b : Val)
    (h1 h2 : HeapVal)
    (ha : getHV st a = .ok h1) (hb : getHV st b = .ok h2)
    (hn1 : isNumeric h1 = true) (hn2 : isNumeric h2 = true) :
    (boolResult (evalRator2 .less a b st) = some true ∧
     boolResult (evalRator2 .equal a b st) = some false ∧
     boolResult (evalRator2 .greater a b st) = some false) ∨
    (boolResult (evalRator2 .less a b st) = some false ∧
     boolResult (evalRator2 .equal a b st) = some true ∧
     boolResult (evalRator2 .greater a b st) = some false) ∨
    (boolResult (evalRator2 .less a b st) = some false ∧
     boolResult (evalRator2 .equal a b st) = some false ∧
     boolResult (evalRator2 .greater a b st) = some true) := by
  obtain ⟨c, hcmp⟩ := cmp_numeric_ok st a b h1 h2 ha hb hn1 hn2
  obtain ⟨w1, w2, w3⟩ := wrappers_of_cmp a b st c hcmp
  rw [w1, w2, w3]
  rcases int_tri c with ⟨o1, o2, o3⟩ | ⟨o1, o2, o3⟩ | ⟨o1, o2, o3⟩
  · left
    simp [o1, o2, o3]
  · right; left
    simp [o1, o2, o3]
  · right; right
    simp [o1, o2, o3]

/-- Witness for C7: comparing the integer 1 against the rational 3/2,
exactly one wrapper (here `Less`) returns true. -/
theorem numeric_comparison_trichotomy_witness :
    (boolResult (evalRator2 .less (some 0) (some 1) intRatStore) = some true ∧
     boolResult (evalRator2 .equal (some 0) (some 1) intRatStore) = some false ∧
     boolResult (evalRator2 .greater (some 0) (some 1) intRatStore) = some false) ∨
    (boolResult (evalRator2 .less (some 0) (some 1) intRatStore) = some false ∧
     boolResult (evalRator2 .equal (some 0) (some 1) intRatStore) = some true ∧
     boolResult (evalRator2 .greater (some 0) (some 1) intRatStore) = some false) ∨
    (boolResult (evalRator2 .less (some 0) (some 1) intRatStore) = some false ∧
     boolResult (evalRator2 .equal (some 0) (some 1) intRatStore) = some false ∧
     boolResult (evalRator2 .greater (some 0) (some 1) intRatStore) = some true) :=
  numeric_comparison_trichotomy intRatStore (some 0) (some 1)
    (.int 1) (.rat 3 2) rfl rfl rfl rfl

/-- C8 counterexample: under the right-operand-first sequencing, which the
C++ standard permits for the two operand evaluations passed as function
arguments in `Binary::eval`, `(cons (display 1) (display 2))` writes "2"
before "1" — so the claimed left-to-right order of binary operand
evaluation is not guaranteed by the source. -/
theorem binary_operand_order_not_guaranteed :
    runOutput (runProgram true 20 consDisplayProg) = some ["2", "1"] ∧
    (["2", "1"] : List String) ≠ ["1", "2"] :=
  ⟨rfl, by decide⟩

/-- C8 amended: variadic primitive nodes evaluate their operands
left-to-right through an explicit loop, observably so for `display`, under
either sequencing of `Binary::eval`; a binary node's two operand
evaluations are indeterminately sequenced C++ function arguments, so either
output order can be observed. -/
theorem operand_order_variadic_left_to_right :
    runOutput (runProgram false 20 listDisplayProg) = some ["1", "2", "3"] ∧
    runOutput (runProgram true 20 listDisplayProg) = some ["1", "2", "3"] ∧
    runOutput (runProgram false 20 consDisplayProg) = some ["1", "2"] ∧
    runOutput (runProgram true 20 consDisplayProg) = some ["2", "1"] :=
  ⟨rfl, rfl, rfl, rfl⟩

/-- C9: `IsEq::evalRator` returns exactly the claimed comparison policy:
true for two nulls or two voids regardless of identity, content equality
for integer, boolean and symbol pairs, and pointer identity for every
other combination of dereferenceable values — hence false for distinct
objects. -/
theorem isEq_comparison_policy (a b : Val) (st : Store) (ha hb : HeapVal)
    (h1 : getHV st a = .ok ha) (h2 : getHV st b = .ok hb) :
    boolResult (evalRator2 .isEq a b st) = some (eqClaimSpec a b ha hb) := by
  cases ha <;> cases hb <;>
  · simp only [evalRator2, h1, h2, eqClaimSpec]
    exact boolResult_BooleanV _ _

/-- Witness for C9: two structurally equal but distinct pairs are not
`eq?`. -/
theorem isEq_comparison_policy_witness :
    boolResult (evalRator2 .isEq (some 0) (some 1) twoPairStore) =
      some false :=
  (isEq_comparison_policy (some 0) (some 1) twoPairStore
    (.pair none none) (.pair none none) rfl rfl).trans (by rfl)

/-- C10: the empty list syntax `()` parses without error into a quotation
of an empty list, and evaluating that quotation yields the null value. -/
theorem empty_list_is_quoted_null :
    parse 5 (.list []) none initialStore = .ok (.Quote (.list [])) ∧
    resultHV (runProgram false 10 [.list []]) = some .null ∧
    resultHV (runProgram true 10 [.list []]) = some .null :=
  ⟨rfl, rfl, rfl⟩

end Scheme
